import Mathlib

/-!
# Verification of the oclif upload/promote key scheme and orchestration

A shallow embedding of the repository's three source files:
* `upload-util` (key templates, S3 directory helpers, Debian helpers),
* the `upload` command (tarball/manifest upload orchestration),
* the `promote` command (channel promotion orchestration).

JavaScript strings are modelled as `List Char`; JS `undefined`-able values as
`Option`; thrown errors as `Except`; the async fan-out of storage operations as
the explicit list of operations the run issues.
-/

set_option autoImplicit false
set_option linter.unusedVariables false

namespace Oclif

/-- JS strings, modelled as lists of characters. -/
abbrev Str := List Char

/-- JS `String.prototype.replace(pat, repl)` with a string pattern:
replaces the first occurrence of `pat` (if any) and returns the string
unchanged otherwise. An empty pattern matches at position 0. -/
def jsReplaceFirst (pat repl : Str) : Str → Str
  | [] => if pat.isEmpty then repl else []
  | c :: rest =>
    if pat.isPrefixOf (c :: rest) then repl ++ (c :: rest).drop pat.length
    else c :: jsReplaceFirst pat repl rest

/-- JS `String.prototype.includes(pat)`: substring containment. -/
def jsIncludes (pat : Str) : Str → Bool
  | [] => pat.isEmpty
  | c :: rest => pat.isPrefixOf (c :: rest) || jsIncludes pat rest

/-- JS `s.split(sep)[0]` for a one-character separator: the part of the
string before the first occurrence of the separator. -/
def jsSplitHead (sep : Char) (s : Str) : Str := s.takeWhile (· ≠ sep)

/-- Node `path.posix.basename`: drop trailing slashes, then take the part
after the last remaining slash. -/
def jsBasename (s : Str) : Str :=
  ((s.reverse.dropWhile (· = '/')).takeWhile (· ≠ '/')).reverse

/-- One normalization step of Node `path.posix.normalize` on the list of
`/`-separated segments (accumulator holds output segments reversed):
empty and `.` segments are dropped, `..` pops the previous segment unless
there is none or it is itself `..`. -/
def normSegs : List Str → List Str → List Str
  | acc, [] => acc.reverse
  | acc, s :: rest =>
    if s = [] ∨ s = ['.'] then normSegs acc rest
    else if s = ['.', '.'] then
      match acc with
      | [] => normSegs [['.', '.']] rest
      | t :: acc2 =>
        if t = ['.', '.'] then normSegs (['.', '.'] :: t :: acc2) rest
        else normSegs acc2 rest
    else normSegs (s :: acc) rest

/-- Node `path.posix.join`: concatenate the non-empty parts with `/`, then
normalize, preserving a leading and a trailing slash. -/
def posixJoin (parts : List Str) : Str :=
  let joined := List.intercalate ['/'] (parts.filter (fun p => !p.isEmpty))
  if joined = [] then ['.']
  else
    let core := List.intercalate ['/'] (normSegs [] (joined.splitOn '/'))
    let base :=
      if joined.head? = some '/' then
        (if core = [] then ['/'] else '/' :: core)
      else (if core = [] then ['.'] else core)
    if joined.getLast? = some '/' ∧ base.getLast? ≠ some '/' then base ++ ['/']
    else base

/-- The S3 part of the build configuration (`s3Config`): the pieces the two
commands read. `none` models a JS `undefined` field. -/
structure S3Config where
  folder : Str
  acl : Option Str
  bucket : Option Str

/-- `commitAWSDir(version, sha, s3Config)` from `upload-util`. -/
def commitAWSDir (version sha : Str) (s3Config : S3Config) : Str :=
  let s3SubDir :=
    if s3Config.folder ≠ [] ∧ s3Config.folder.getLast? ≠ some '/' then
      s3Config.folder ++ ['/']
    else s3Config.folder
  posixJoin [s3SubDir, "versions".data, version, sha]

/-- `channelAWSDir(channel, s3Config)` from `upload-util`. -/
def channelAWSDir (channel : Str) (s3Config : S3Config) : Str :=
  let s3SubDir :=
    if s3Config.folder ≠ [] ∧ s3Config.folder.getLast? ≠ some '/' then
      s3Config.folder ++ ['/']
    else s3Config.folder
  posixJoin [s3SubDir, "channels".data, channel]

/-- The option record handed to `templateShortKey`; a field the chosen
template does not mention is irrelevant, `[]` stands for an absent field. -/
structure TemplateOpts where
  bin : Str
  platform : Str
  arch : Str
  ext : Str
  version : Str
  sha : Str
  versionShaRevision : Str

/-- All-absent template options. -/
def noOpts : TemplateOpts := ⟨[], [], [], [], [], [], []⟩

/-- The seven built-in short-key template names of `templateShortKey`. -/
inductive ShortKeyType
  | baseDir | deb | macos | manifest | unversioned | versioned | win32

/-- `templateShortKey(type, options)`: EJS rendering of the built-in
templates, which interpolates the named options into the literal text. -/
def templateShortKey : ShortKeyType → TemplateOpts → Str
  | .baseDir, o => o.bin
  | .deb, o => o.bin ++ "_".data ++ o.versionShaRevision ++ "_".data ++ o.arch ++ ".deb".data
  | .macos, o =>
    o.bin ++ "-v".data ++ o.version ++ "-".data ++ o.sha ++ "-".data ++ o.arch ++ ".pkg".data
  | .manifest, o =>
    o.bin ++ "-v".data ++ o.version ++ "-".data ++ o.sha ++ "-".data ++ o.platform ++
      "-".data ++ o.arch ++ "-buildmanifest".data
  | .unversioned, o => o.bin ++ "-".data ++ o.platform ++ "-".data ++ o.arch ++ o.ext
  | .versioned, o =>
    o.bin ++ "-v".data ++ o.version ++ "-".data ++ o.sha ++ "-".data ++ o.platform ++
      "-".data ++ o.arch ++ o.ext
  | .win32, o =>
    o.bin ++ "-v".data ++ o.version ++ "-".data ++ o.sha ++ "-".data ++ o.arch ++ ".exe".data

/-- `debArch(arch)`: the fixed Debian architecture table; any other value
throws `invalid arch`. -/
def debArch (arch : Str) : Except Str Str :=
  if arch = "x64".data then .ok "amd64".data
  else if arch = "x86".data then .ok "i386".data
  else if arch = "arm".data then .ok "armel".data
  else if arch = "arm64".data then .ok "arm64".data
  else .error ("invalid arch: ".data ++ arch)

/-- `debVersion(buildConfig)`: the version up to the first `-`, then
`.<gitSha>-1`. -/
def debVersion (version gitSha : Str) : Str :=
  jsSplitHead '-' version ++ ".".data ++ gitSha ++ "-1".data

/-- A build target: `{platform, arch}`. -/
structure TargetOptions where
  arch : Str
  platform : Str
deriving DecidableEq

/-- One invocation of the external custom-template hook `config.s3Key`:
the template name plus the arguments the call site passes along. -/
structure S3KeyCall where
  templ : Str
  ext : Option Str
  arch : Str
  platform : Str
  channel : Option Str

/-- The part of the oclif `config` object the key builder reads: whether
`pjson.oclif.update.s3.templates` is set, the external `s3Key` hook, and the
binary name / version. The hook itself is an external collaborator and is
modelled as an opaque function value. -/
structure OclifConfig where
  hasCustomTemplates : Bool
  s3Key : S3KeyCall → Str
  bin : Str
  version : Str

/-- The `options` record captured by `s3Keys(config, s3Config, options)`. -/
structure KeyOpts where
  bin : Str
  sha : Str
  version : Str

/-- `s3Keys(...).channelManifest(target, channel)`. -/
def s3Keys_channelManifest (config : OclifConfig) (s3Config : S3Config) (options : KeyOpts)
    (target : TargetOptions) (channel : Str) : Str :=
  if config.hasCustomTemplates then
    config.s3Key ⟨"manifest".data, none, target.arch, target.platform, some channel⟩
  else
    let manifest := templateShortKey .manifest
      { noOpts with bin := options.bin, sha := options.sha, version := options.version,
                    arch := target.arch, platform := target.platform }
    let unversionedManifest :=
      jsReplaceFirst ("-v".data ++ options.version ++ "-".data ++ options.sha) [] manifest
    channelAWSDir channel s3Config ++ "/".data ++ unversionedManifest

/-- `s3Keys(...).channelTarball(ext, target, channel)`. -/
def s3Keys_channelTarball (config : OclifConfig) (s3Config : S3Config) (options : KeyOpts)
    (ext : Str) (target : TargetOptions) (channel : Str) : Str :=
  if config.hasCustomTemplates then
    config.s3Key ⟨"unversioned".data, some ext, target.arch, target.platform, some channel⟩
  else
    channelAWSDir channel s3Config ++ "/".data ++ templateShortKey .unversioned
      { noOpts with bin := options.bin, sha := options.sha, version := options.version,
                    arch := target.arch, platform := target.platform, ext := ext }

/-- `s3Keys(...).cloudKey(localKey)`. -/
def s3Keys_cloudKey (config : OclifConfig) (s3Config : S3Config) (options : KeyOpts)
    (localKey : Str) : Str :=
  if config.hasCustomTemplates then localKey
  else commitAWSDir options.version options.sha s3Config ++ "/".data ++ localKey

/-- `s3Keys(...).indexFilename(ext, target, channel)`. -/
def s3Keys_indexFilename (config : OclifConfig) (s3Config : S3Config) (options : KeyOpts)
    (ext : Str) (target : TargetOptions) (channel : Str) : Str :=
  if config.hasCustomTemplates then
    config.s3Key ⟨"unversioned".data, some ext, target.arch, target.platform, some channel⟩
  else
    templateShortKey .unversioned
      { noOpts with bin := options.bin, sha := options.sha, version := options.version,
                    arch := target.arch, platform := target.platform, ext := ext }

/-- `s3Keys(...).manifest(target)`. -/
def s3Keys_manifest (config : OclifConfig) (s3Config : S3Config) (options : KeyOpts)
    (target : TargetOptions) : Str :=
  if config.hasCustomTemplates then
    config.s3Key ⟨"manifest".data, none, target.arch, target.platform, none⟩
  else
    templateShortKey .manifest
      { noOpts with bin := options.bin, sha := options.sha, version := options.version,
                    arch := target.arch, platform := target.platform }

/-- `s3Keys(...).versioned(ext, target)`. -/
def s3Keys_versioned (config : OclifConfig) (s3Config : S3Config) (options : KeyOpts)
    (ext : Str) (target : TargetOptions) : Str :=
  if config.hasCustomTemplates then
    config.s3Key ⟨"versioned".data, some ext, target.arch, target.platform, none⟩
  else
    templateShortKey .versioned
      { noOpts with bin := options.bin, sha := options.sha, version := options.version,
                    arch := target.arch, platform := target.platform, ext := ext }

/-- JS `a || b` for an optional string (`undefined` and `''` are falsy). -/
def jsOrStr (a : Option Str) (b : Str) : Str :=
  match a with
  | none => b
  | some s => if s.isEmpty then b else s

/-- JS falsiness of an optional string value. -/
def jsFalsy (a : Option Str) : Bool :=
  match a with
  | none => true
  | some s => s.isEmpty

/-- One `aws.s3.uploadFile` call of the upload command: the local source path
and the S3 parameters it is issued with. -/
structure UploadOp where
  localPath : Str
  bucket : Option Str
  key : Str
  acl : Str
  cacheControl : Str
  contentType : Str
deriving DecidableEq

/-- An observable action of the upload run: a file upload or a `ux.warn`. -/
inductive UploadEvent
  | upload (op : UploadOp)
  | warn (msg : Str)
deriving DecidableEq

/-- A `this.error(message, {suggestions})` abort of the upload command. -/
structure UploadError where
  message : Str
  suggestions : List Str
deriving DecidableEq

/-- The per-target `uploadTarball` closure of the upload command: the gz
upload, the optional-manifest upload or warning, and the xz upload when
enabled, in issue order. -/
def uploadTarballEvents (fs : Str → Bool) (dist : Str → Str) (config : OclifConfig)
    (s3Config : S3Config) (options : KeyOpts) (acl : Str) (xz : Bool)
    (target : TargetOptions) : List UploadEvent :=
  let releaseTarball (ext : Str) : UploadEvent :=
    let localKey := s3Keys_versioned config s3Config options ext target
    let cloudKey := s3Keys_cloudKey config s3Config options localKey
    .upload ⟨dist localKey, s3Config.bucket, cloudKey, acl,
             "max-age=604800".data, "application/gzip".data⟩
  let manifestEvents : List UploadEvent :=
    let manifest := s3Keys_manifest config s3Config options target
    let cloudKey := s3Keys_cloudKey config s3Config options manifest
    let localManifest := dist manifest
    if fs localManifest then
      [.upload ⟨dist manifest, s3Config.bucket, cloudKey, acl,
                "max-age=86400".data, "application/json".data⟩]
    else
      [.warn ("Cannot find buildmanifest ".data ++ localManifest ++
              ". CLI will not be able to update itself.".data)]
  [releaseTarball ".tar.gz".data] ++ manifestEvents ++
    (if xz then [releaseTarball ".tar.xz".data] else [])

/-- The versioned `.tar.gz` short key whose local existence the upload
command checks for a target. -/
def uploadGzKey (config : OclifConfig) (s3Config : S3Config) (gitSha : Str)
    (target : TargetOptions) : Str :=
  s3Keys_versioned config s3Config ⟨config.bin, gitSha, config.version⟩ ".tar.gz".data target

/-- `UploadTarballs.run`: fail fast (before any upload) at the first target
whose local versioned `.tar.gz` is missing; otherwise the list of events all
targets issue, in the order the `Promise.all` array is built. `fs` is the
local-filesystem existence check and `dist` the local dist-path helper. -/
def uploadRun (fs : Str → Bool) (dist : Str → Str) (config : OclifConfig)
    (s3Config : S3Config) (gitSha : Str) (targets : List TargetOptions) (xz : Bool) :
    Except UploadError (List UploadEvent) :=
  let options : KeyOpts := ⟨config.bin, gitSha, config.version⟩
  match targets.find?
      (fun t => !fs (dist (s3Keys_versioned config s3Config options ".tar.gz".data t))) with
  | some t =>
    .error ⟨"Cannot find a tarball ".data ++
        dist (s3Keys_versioned config s3Config options ".tar.gz".data t) ++
        " for ".data ++ t.platform ++ "-".data ++ t.arch,
      ["Run \"oclif pack --target ".data ++ t.platform ++ "-".data ++ t.arch ++
        "\" before uploading".data]⟩
  | none =>
    let acl := jsOrStr s3Config.acl "public-read".data
    .ok (targets.flatMap (uploadTarballEvents fs dist config s3Config options acl xz))

/-- `uniq` from `util`. Modelled from the spec: the helper is not under the
provided sources; the spec's promotion step runs over "each distinct
architecture present among darwin targets", so `uniq` keeps the distinct
elements, first occurrence first. -/
def uniq (l : List Str) : List Str :=
  l.foldl (fun acc x => if x ∈ acc then acc else acc ++ [x]) []

/-- One `aws.s3.copyObject` call of the promote command: `CopySource`,
destination `Key`, the S3 parameters, and the log namespace it is issued
with. -/
structure CopyOp where
  source : Str
  key : Str
  acl : Str
  cacheControl : Str
  nspace : Str
deriving DecidableEq

/-- An observable action of the promote run: an object copy or an
`appendToIndex` of a promoted URL under an index filename. -/
inductive PromoteEvent
  | copy (op : CopyOp)
  | index (filename : Str) (originalUrl : Str)
deriving DecidableEq

/-- The promote command's flags that feed key computation and fan-out. -/
structure PromoteFlags where
  channel : Str
  version : Str
  sha : Str
  maxAge : Str
  xz : Bool
  macos : Bool
  win : Bool
  deb : Bool
  indexes : Bool

/-- `cloudBucketCommitKey(shortKey)` from the promote command. -/
def cloudBucketCommitKey (s3Config : S3Config) (bucket version sha shortKey : Str) : Str :=
  posixJoin [bucket, commitAWSDir version sha s3Config, shortKey]

/-- `cloudChannelKey(shortKey)` from the promote command. -/
def cloudChannelKey (s3Config : S3Config) (channel shortKey : Str) : Str :=
  posixJoin [channelAWSDir channel s3Config, shortKey]

/-- `promoteManifest(target)`: copy the versioned manifest to its channel
key, with `path.basename(destKey)` as log namespace. -/
def promoteManifestEvents (config : OclifConfig) (s3Config : S3Config) (flags : PromoteFlags)
    (acl maxAge bucket : Str) (target : TargetOptions) : List PromoteEvent :=
  let opts : KeyOpts := ⟨config.bin, flags.sha, flags.version⟩
  let sourceKey := s3Keys_cloudKey config s3Config opts (s3Keys_manifest config s3Config opts target)
  let destKey := s3Keys_channelManifest config s3Config opts target flags.channel
  [.copy ⟨posixJoin [bucket, sourceKey], destKey, acl, maxAge, jsBasename destKey⟩]

/-- `promoteGzTarballs(target)` / `promoteXzTarballs(target)`: copy the
versioned tarball to its channel key, optionally appending to the index. -/
def promoteTarballEvents (config : OclifConfig) (s3Config : S3Config) (flags : PromoteFlags)
    (acl maxAge bucket ext : Str) (target : TargetOptions) : List PromoteEvent :=
  let opts : KeyOpts := ⟨config.bin, flags.sha, flags.version⟩
  let sourceKey := s3Keys_cloudKey config s3Config opts (s3Keys_versioned config s3Config opts ext target)
  let destKey := s3Keys_channelTarball config s3Config opts ext target flags.channel
  let copySource := posixJoin [bucket, sourceKey]
  [.copy ⟨copySource, destKey, acl, maxAge,
          s3Keys_indexFilename config s3Config opts ext target flags.channel⟩] ++
    (if flags.indexes then
      [.index (s3Keys_indexFilename config s3Config opts ext target flags.channel) copySource]
    else [])

/-- `promoteMacInstallers`: per distinct darwin arch, copy the commit `.pkg`
to a channel key with the `-v<version>-<sha>` substring stripped. -/
def promoteMacEvents (config : OclifConfig) (s3Config : S3Config) (flags : PromoteFlags)
    (acl maxAge bucket : Str) (targets : List TargetOptions) : List PromoteEvent :=
  let arches := uniq ((targets.filter (fun t => t.platform == "darwin".data)).map (·.arch))
  arches.flatMap (fun arch =>
    let darwinPkg := templateShortKey .macos
      { noOpts with arch := arch, bin := config.bin, sha := flags.sha, version := flags.version }
    let darwinCopySource := cloudBucketCommitKey s3Config bucket flags.version flags.sha darwinPkg
    let unversionedPkg :=
      jsReplaceFirst ("-v".data ++ flags.version ++ "-".data ++ flags.sha) [] darwinPkg
    [.copy ⟨darwinCopySource, cloudChannelKey s3Config flags.channel unversionedPkg,
            acl, maxAge, unversionedPkg⟩] ++
      (if flags.indexes then [.index unversionedPkg darwinCopySource] else []))

/-- `promoteWindowsInstallers`: per win32 target arch, copy the commit `.exe`
to a channel key with the `-v<version>-<sha>` substring stripped. -/
def promoteWinEvents (config : OclifConfig) (s3Config : S3Config) (flags : PromoteFlags)
    (acl maxAge bucket : Str) (targets : List TargetOptions) : List PromoteEvent :=
  let arches := (targets.filter (fun t => t.platform == "win32".data)).map (·.arch)
  arches.flatMap (fun arch =>
    let winPkg := templateShortKey .win32
      { noOpts with arch := arch, bin := config.bin, sha := flags.sha, version := flags.version }
    let winCopySource := cloudBucketCommitKey s3Config bucket flags.version flags.sha winPkg
    let unversionedExe :=
      jsReplaceFirst ("-v".data ++ flags.version ++ "-".data ++ flags.sha) [] winPkg
    [.copy ⟨winCopySource, cloudChannelKey s3Config flags.channel unversionedExe,
            acl, maxAge, unversionedExe⟩] ++
      (if flags.indexes then [.index unversionedExe winCopySource] else []))

/-- The Debian repository metadata files shared by every promotion. -/
def debMetadataFiles : List Str :=
  ["Packages.gz".data, "Packages.xz".data, "Packages.bz2".data,
   "Release".data, "InRelease".data, "Release.gpg".data]

/-- Sequential `.map` over a throwing function (the synchronous JS array map
whose callback may throw): stops at the first error. -/
def throwingMap {α β ε : Type} (f : α → Except ε β) : List α → Except ε (List β)
  | [] => .ok []
  | a :: rest => do
    let r ← f a
    let rs ← throwingMap f rest
    pure (r :: rs)

/-- The `debArtifacts` list of `promoteDebianAptPackages`: one mapped `.deb`
per linux target whose arch does not contain `x86`, plus the shared
metadata files; the first unmappable architecture throws. -/
def debArtifactsE (config : OclifConfig) (gitSha : Str) (targets : List TargetOptions) :
    Except Str (List Str) := do
  let arches := targets.filter (fun t => t.platform == "linux".data)
  let debs ← throwingMap (fun a => do
      let da ← debArch a.arch
      pure (templateShortKey .deb
        { noOpts with arch := da, bin := config.bin,
                      versionShaRevision := debVersion config.version gitSha }))
    (arches.filter (fun a => !jsIncludes "x86".data a.arch))
  pure (debs ++ debMetadataFiles)

/-- `promoteDebianAptPackages`: each artifact is copied from the commit
`apt/` path to the canonical channel `apt/` key and to the literal
`apt/./<artifact>` workaround key, as two separate copy operations. -/
def promoteDebEvents (config : OclifConfig) (s3Config : S3Config) (gitSha : Str)
    (flags : PromoteFlags) (acl maxAge bucket : Str) (targets : List TargetOptions) :
    Except Str (List PromoteEvent) := do
  let debArtifacts ← debArtifactsE config gitSha targets
  pure (debArtifacts.flatMap (fun artifact =>
    let debCopySource :=
      cloudBucketCommitKey s3Config bucket flags.version flags.sha ("apt/".data ++ artifact)
    let debKey := cloudChannelKey s3Config flags.channel ("apt/".data ++ artifact)
    let workaroundKey := cloudChannelKey s3Config flags.channel "apt/".data ++ "./".data ++ artifact
    [.copy ⟨debCopySource, debKey, acl, maxAge, debKey⟩,
     .copy ⟨debCopySource, workaroundKey, acl, maxAge, workaroundKey⟩]))

/-- `Promote.run`: abort when no bucket is configured, otherwise the list of
storage operations the run issues, in the order the `Promise.all` array is
built. `gitSha` is `buildConfig.gitSha` (used only by `debVersion`); the
promoted version/sha come from the flags. -/
def promoteRun (config : OclifConfig) (s3Config : S3Config) (gitSha : Str)
    (flags : PromoteFlags) (targets : List TargetOptions) :
    Except Str (List PromoteEvent) :=
  if jsFalsy s3Config.bucket then .error "Cannot determine S3 bucket for promotion".data
  else
    let bucket := s3Config.bucket.getD []
    let acl := s3Config.acl.getD "public-read".data
    let maxAge := "max-age=".data ++ flags.maxAge
    match
      (if flags.deb then promoteDebEvents config s3Config gitSha flags acl maxAge bucket targets
       else .ok []) with
    | .error e => .error e
    | .ok debEvents =>
      .ok
        (targets.flatMap (fun t =>
            promoteManifestEvents config s3Config flags acl maxAge bucket t ++
            promoteTarballEvents config s3Config flags acl maxAge bucket ".tar.gz".data t) ++
          (if flags.xz then
            targets.flatMap
              (promoteTarballEvents config s3Config flags acl maxAge bucket ".tar.xz".data)
          else []) ++
          (if flags.macos then promoteMacEvents config s3Config flags acl maxAge bucket targets
           else []) ++
          (if flags.win then promoteWinEvents config s3Config flags acl maxAge bucket targets
           else []) ++
          debEvents)

example : posixJoin ["my-cli/".data, "versions".data, "1.2.3".data, "abc1234".data] =
    "my-cli/versions/1.2.3/abc1234".data := by decide

example : commitAWSDir "1.2.3".data "abc1234".data ⟨[], none, none⟩ =
    "versions/1.2.3/abc1234".data := by decide

example : commitAWSDir "1.2.3".data "abc1234".data ⟨"my-cli".data, none, none⟩ =
    "my-cli/versions/1.2.3/abc1234".data := by decide

example : channelAWSDir "stable".data ⟨[], none, none⟩ = "channels/stable".data := by decide

example : posixJoin ["channels/stable".data, "apt/".data] = "channels/stable/apt/".data := by
  decide

example : templateShortKey .versioned
    { noOpts with bin := "mycli".data, platform := "linux".data, arch := "x64".data,
                  ext := ".tar.gz".data, version := "1.2.3".data, sha := "abc1234".data } =
    "mycli-v1.2.3-abc1234-linux-x64.tar.gz".data := by decide

example : debVersion "1.2.3-beta.1".data "abc1234".data = "1.2.3.abc1234-1".data := by decide

/-! ## General lemmas about the string primitives -/

/-- If the pattern does not occur strictly before the marked occurrence,
`jsReplaceFirst` replaces exactly the marked occurrence. -/
theorem jsReplaceFirst_marked (pat repl pre suf : Str)
    (h : ∀ i, i < pre.length → pat.isPrefixOf ((pre ++ pat ++ suf).drop i) = false) :
    jsReplaceFirst pat repl (pre ++ pat ++ suf) = pre ++ repl ++ suf := by
  induction pre with
  | nil =>
    simp only [List.nil_append]
    cases pat with
    | nil =>
      cases suf with
      | nil => simp [jsReplaceFirst]
      | cons c rest => simp [jsReplaceFirst]
    | cons p ps =>
      show jsReplaceFirst (p :: ps) repl ((p :: ps) ++ suf) = repl ++ suf
      rw [List.cons_append, jsReplaceFirst]
      rw [← List.cons_append]
      have hpre : (p :: ps).isPrefixOf ((p :: ps) ++ suf) = true :=
        List.isPrefixOf_iff_prefix.mpr (List.prefix_append _ _)
      simp [hpre, List.drop_left]
  | cons c pre ih =>
    have h0 : pat.isPrefixOf (c :: (pre ++ pat ++ suf)) = false := by
      have := h 0 (by simp)
      simpa using this
    show jsReplaceFirst pat repl (c :: (pre ++ pat ++ suf)) = c :: (pre ++ repl ++ suf)
    rw [jsReplaceFirst]
    simp only [h0, Bool.false_eq_true, if_false]
    congr 1
    exact ih (fun i hi => by
      have := h (i + 1) (by simpa using Nat.succ_lt_succ hi)
      simpa using this)

/-- `takeWhile` of an all-good list followed by a bad head keeps exactly the
all-good part. -/
theorem takeWhile_all_append_cons {α : Type} (p : α → Bool) (l₁ : List α) (a : α)
    (l₂ : List α) (h : ∀ x ∈ l₁, p x = true) (ha : p a = false) :
    (l₁ ++ a :: l₂).takeWhile p = l₁ := by
  induction l₁ with
  | nil => simp [ha]
  | cons c cs ih =>
    have hc : p c = true := h c (by simp)
    simp only [List.cons_append, List.takeWhile_cons, hc, if_true]
    rw [ih (fun x hx => h x (by simp [hx]))]

/-- `basename` of `dir ++ "/" ++ name` is `name` when `name` is nonempty and
slash-free. -/
theorem jsBasename_append (dir name : Str) (h1 : '/' ∉ name) (h2 : name ≠ []) :
    jsBasename (dir ++ "/".data ++ name) = name := by
  unfold jsBasename
  have hrev : (dir ++ "/".data ++ name).reverse = name.reverse ++ '/' :: dir.reverse := by
    simp [List.reverse_append]
  rw [hrev]
  obtain ⟨c, rest, hcr⟩ : ∃ c rest, name.reverse = c :: rest := by
    cases hr : name.reverse with
    | nil => exact absurd (by simpa using congrArg List.reverse hr) h2
    | cons c rest => exact ⟨c, rest, rfl⟩
  have hmem : ∀ x ∈ name.reverse, x ≠ '/' := by
    intro x hx
    exact fun hxe => h1 (by simpa [hxe] using List.mem_reverse.mp hx)
  rw [hcr]
  have hc : (c = '/') = False := by
    simp only [eq_iff_iff, iff_false]
    exact hmem c (by rw [hcr]; simp)
  have hdrop : List.dropWhile (fun x => decide (x = '/')) ((c :: rest) ++ '/' :: dir.reverse) =
      (c :: rest) ++ '/' :: dir.reverse := by
    simp only [List.cons_append, List.dropWhile_cons]
    simp [hc]
  rw [hdrop]
  have htake : List.takeWhile (fun x => decide (x ≠ '/')) ((c :: rest) ++ '/' :: dir.reverse) =
      c :: rest := by
    apply takeWhile_all_append_cons
    · intro x hx
      simp only [decide_eq_true_iff]
      exact hmem x (by rw [hcr]; exact hx)
    · simp
  rw [htake, ← hcr, List.reverse_reverse]

/-! ## C1: unversioned short key versus stripped versioned short key -/

/-- C1 counterexample: the claimed identity
`unversioned(bin,platform,arch,ext) = versioned(...).replace("-v"+version+"-"+sha, "")`
fails when the binary name itself contains the `-v<version>-<sha>` substring:
for `bin = "-v1-ab"`, `version = "1"`, `sha = "a"`, JS `replace` removes the
earlier occurrence inside the binary name, not the marked one. -/
theorem c1_strip_counterexample :
    ¬ (templateShortKey .unversioned
        ⟨"-v1-ab".data, "linux".data, "x64".data, ".tar.gz".data, "1".data, "a".data, []⟩ =
      jsReplaceFirst ("-v".data ++ "1".data ++ "-".data ++ "a".data) []
        (templateShortKey .versioned
          ⟨"-v1-ab".data, "linux".data, "x64".data, ".tar.gz".data, "1".data, "a".data, []⟩)) := by
  decide

/-- C1 (amended): for every parameter set in which the substring
`-v<version>-<sha>` does not occur in the versioned filename strictly before
the marked occurrence at index `|bin|` (in particular whenever the binary
name does not itself reproduce it), the unversioned short key equals the
versioned short key with that literal substring removed by JS `replace`. -/
theorem c1_unversioned_eq_versioned_strip (bin version sha platform arch ext : Str)
    (h : ∀ i, i < bin.length →
      ("-v".data ++ version ++ "-".data ++ sha).isPrefixOf
        ((templateShortKey .versioned ⟨bin, platform, arch, ext, version, sha, []⟩).drop i) =
        false) :
    templateShortKey .unversioned ⟨bin, platform, arch, ext, version, sha, []⟩ =
      jsReplaceFirst ("-v".data ++ version ++ "-".data ++ sha) []
        (templateShortKey .versioned ⟨bin, platform, arch, ext, version, sha, []⟩) := by
  have e1 : templateShortKey .versioned ⟨bin, platform, arch, ext, version, sha, []⟩ =
      bin ++ ("-v".data ++ version ++ "-".data ++ sha) ++
        ("-".data ++ platform ++ "-".data ++ arch ++ ext) := by
    simp [templateShortKey, List.append_assoc]
  rw [e1] at h ⊢
  rw [jsReplaceFirst_marked _ _ _ _ h]
  simp [templateShortKey, List.append_assoc]

/-- C1 witness: the amended theorem at a concrete parameter set. -/
theorem c1_unversioned_eq_versioned_strip_witness :
    (∀ i, i < ("mycli".data : Str).length →
      (("-v".data ++ "1.2.3".data ++ "-".data ++ "abc1234".data).isPrefixOf
        ((templateShortKey .versioned
          ⟨"mycli".data, "linux".data, "x64".data, ".tar.gz".data,
            "1.2.3".data, "abc1234".data, []⟩).drop i)) = false) ∧
    templateShortKey .unversioned
        ⟨"mycli".data, "linux".data, "x64".data, ".tar.gz".data,
          "1.2.3".data, "abc1234".data, []⟩ =
      jsReplaceFirst ("-v".data ++ "1.2.3".data ++ "-".data ++ "abc1234".data) []
        (templateShortKey .versioned
          ⟨"mycli".data, "linux".data, "x64".data, ".tar.gz".data,
            "1.2.3".data, "abc1234".data, []⟩) :=
  ⟨by decide,
   c1_unversioned_eq_versioned_strip "mycli".data "1.2.3".data "abc1234".data
     "linux".data "x64".data ".tar.gz".data (by decide)⟩

/-! ## C2: custom templates as a total versus partial override -/

/-- C2 counterexample: with custom templates configured and a hook whose
every result is `"HOOK"`, the macOS installer promotion still computes its
keys from the built-in `templateShortKey` scheme — its destination key is
`channels/stable/mycli-x64.pkg`, a value the hook can never return — so key
computation does not all delegate to the hook. -/
theorem c2_total_override_counterexample :
    promoteMacEvents ⟨true, fun _ => "HOOK".data, "mycli".data, "1.2.3".data⟩
        ⟨[], none, some "bkt".data⟩
        ⟨"stable".data, "1.2.3".data, "abc1234".data, "86400".data,
          false, true, false, false, false⟩
        "public-read".data "max-age=86400".data "bkt".data
        [⟨"x64".data, "darwin".data⟩] =
      [.copy ⟨"bkt/versions/1.2.3/abc1234/mycli-v1.2.3-abc1234-x64.pkg".data,
              "channels/stable/mycli-x64.pkg".data, "public-read".data,
              "max-age=86400".data, "mycli-x64.pkg".data⟩] ∧
    ∀ call : S3KeyCall,
      (⟨true, fun _ => "HOOK".data, "mycli".data, "1.2.3".data⟩ : OclifConfig).s3Key call ≠
        "channels/stable/mycli-x64.pkg".data :=
  ⟨by decide, fun call =>
    (by decide : ("HOOK".data : Str) ≠ "channels/stable/mycli-x64.pkg".data)⟩

/-- C2 (amended): with custom templates configured, the six `s3Keys`
operations delegate verbatim to the external hook and `cloudKey` is the
identity; but the macOS, Windows and Debian promotion keys are computed by
the built-in templates regardless of the custom-template configuration:
their events are unchanged under any change of hook and template flag. -/
theorem c2_custom_templates_delegation (config : OclifConfig) (s3Config : S3Config)
    (options : KeyOpts) (ext k : Str) (target : TargetOptions) (channel : Str)
    (hcustom : config.hasCustomTemplates = true) :
    s3Keys_versioned config s3Config options ext target =
        config.s3Key ⟨"versioned".data, some ext, target.arch, target.platform, none⟩ ∧
    s3Keys_manifest config s3Config options target =
        config.s3Key ⟨"manifest".data, none, target.arch, target.platform, none⟩ ∧
    s3Keys_channelTarball config s3Config options ext target channel =
        config.s3Key ⟨"unversioned".data, some ext, target.arch, target.platform, some channel⟩ ∧
    s3Keys_channelManifest config s3Config options target channel =
        config.s3Key ⟨"manifest".data, none, target.arch, target.platform, some channel⟩ ∧
    s3Keys_indexFilename config s3Config options ext target channel =
        config.s3Key ⟨"unversioned".data, some ext, target.arch, target.platform, some channel⟩ ∧
    s3Keys_cloudKey config s3Config options k = k ∧
    (∀ config2 : OclifConfig, config2.bin = config.bin →
      ∀ flags acl maxAge bucket targets gitSha,
        promoteMacEvents config s3Config flags acl maxAge bucket targets =
          promoteMacEvents config2 s3Config flags acl maxAge bucket targets ∧
        promoteWinEvents config s3Config flags acl maxAge bucket targets =
          promoteWinEvents config2 s3Config flags acl maxAge bucket targets ∧
        (config2.version = config.version →
          promoteDebEvents config s3Config gitSha flags acl maxAge bucket targets =
            promoteDebEvents config2 s3Config gitSha flags acl maxAge bucket targets)) := by
  refine ⟨by simp [s3Keys_versioned, hcustom], by simp [s3Keys_manifest, hcustom],
    by simp [s3Keys_channelTarball, hcustom], by simp [s3Keys_channelManifest, hcustom],
    by simp [s3Keys_indexFilename, hcustom], by simp [s3Keys_cloudKey, hcustom],
    fun config2 hbin flags acl maxAge bucket targets gitSha => ⟨?_, ?_, fun hver => ?_⟩⟩
  · unfold promoteMacEvents
    rw [hbin]
  · unfold promoteWinEvents
    rw [hbin]
  · unfold promoteDebEvents debArtifactsE
    rw [hbin, hver]

/-- C2 witness: the amended theorem applied at a concrete configuration with
custom templates. -/
theorem c2_custom_templates_delegation_witness :
    s3Keys_cloudKey ⟨true, fun _ => "HOOK".data, "mycli".data, "1.2.3".data⟩ ⟨[], none, none⟩
        ⟨"mycli".data, "abc1234".data, "1.2.3".data⟩ "some/key".data = "some/key".data :=
  (c2_custom_templates_delegation ⟨true, fun _ => "HOOK".data, "mycli".data, "1.2.3".data⟩
    ⟨[], none, none⟩ ⟨"mycli".data, "abc1234".data, "1.2.3".data⟩ ".tar.gz".data
    "some/key".data ⟨"x64".data, "linux".data⟩ "stable".data rfl).2.2.2.2.2.1

/-! ## C3: channel tarball versus channel directory and index filename -/

/-- C3 counterexample: with custom templates configured, `channelTarball` is
whatever the hook returns; for a hook returning `"x"` it does not begin with
the channel directory `channels/stable`, so the property does not hold in
every configuration. -/
theorem c3_channelTarball_counterexample :
    ¬ ((channelAWSDir "stable".data ⟨[], none, none⟩).isPrefixOf
        (s3Keys_channelTarball ⟨true, fun _ => "x".data, "mycli".data, "1.2.3".data⟩
          ⟨[], none, none⟩ ⟨"mycli".data, "abc1234".data, "1.2.3".data⟩
          ".tar.gz".data ⟨"x64".data, "linux".data⟩ "stable".data) = true ∧
      jsBasename (s3Keys_channelTarball ⟨true, fun _ => "x".data, "mycli".data, "1.2.3".data⟩
          ⟨[], none, none⟩ ⟨"mycli".data, "abc1234".data, "1.2.3".data⟩
          ".tar.gz".data ⟨"x64".data, "linux".data⟩ "stable".data) =
        s3Keys_indexFilename ⟨true, fun _ => "x".data, "mycli".data, "1.2.3".data⟩
          ⟨[], none, none⟩ ⟨"mycli".data, "abc1234".data, "1.2.3".data⟩
          ".tar.gz".data ⟨"x64".data, "linux".data⟩ "stable".data) := by
  decide

/-- C3 (amended): under the built-in scheme (no custom templates),
`channelTarball(ext, target, channel)` always begins with
`channelDir(channel)`, and — whenever the unversioned short filename is
slash-free, in particular for slash-free bin/platform/arch/ext — its
basename equals `indexFilename(ext, target, channel)`. -/
theorem c3_channelTarball_shape (config : OclifConfig) (s3Config : S3Config)
    (options : KeyOpts) (ext : Str) (target : TargetOptions) (channel : Str)
    (hcustom : config.hasCustomTemplates = false)
    (hslash : '/' ∉ options.bin ++ target.platform ++ target.arch ++ ext) :
    (channelAWSDir channel s3Config).isPrefixOf
        (s3Keys_channelTarball config s3Config options ext target channel) = true ∧
    jsBasename (s3Keys_channelTarball config s3Config options ext target channel) =
      s3Keys_indexFilename config s3Config options ext target channel := by
  constructor
  · simp only [s3Keys_channelTarball, hcustom, Bool.false_eq_true, if_false]
    exact List.isPrefixOf_iff_prefix.mpr
      ⟨"/".data ++ templateShortKey .unversioned
        { noOpts with bin := options.bin, sha := options.sha, version := options.version,
                      arch := target.arch, platform := target.platform, ext := ext },
       by simp [List.append_assoc]⟩
  · simp only [s3Keys_channelTarball, s3Keys_indexFilename, hcustom, Bool.false_eq_true,
      if_false]
    apply jsBasename_append
    · intro hmem
      apply hslash
      have hdash : ¬ ('/' : Char) ∈ "-".data := by decide
      simp only [templateShortKey, List.mem_append] at hmem ⊢
      tauto
    · simp [templateShortKey]

/-- C3 witness: the amended theorem at a concrete parameter set. -/
theorem c3_channelTarball_shape_witness :
    (channelAWSDir "stable".data ⟨[], none, some "bkt".data⟩).isPrefixOf
        (s3Keys_channelTarball ⟨false, fun _ => [], "mycli".data, "1.2.3".data⟩
          ⟨[], none, some "bkt".data⟩ ⟨"mycli".data, "abc1234".data, "1.2.3".data⟩
          ".tar.gz".data ⟨"x64".data, "linux".data⟩ "stable".data) = true ∧
    jsBasename (s3Keys_channelTarball ⟨false, fun _ => [], "mycli".data, "1.2.3".data⟩
        ⟨[], none, some "bkt".data⟩ ⟨"mycli".data, "abc1234".data, "1.2.3".data⟩
        ".tar.gz".data ⟨"x64".data, "linux".data⟩ "stable".data) =
      s3Keys_indexFilename ⟨false, fun _ => [], "mycli".data, "1.2.3".data⟩
        ⟨[], none, some "bkt".data⟩ ⟨"mycli".data, "abc1234".data, "1.2.3".data⟩
        ".tar.gz".data ⟨"x64".data, "linux".data⟩ "stable".data :=
  c3_channelTarball_shape ⟨false, fun _ => [], "mycli".data, "1.2.3".data⟩
    ⟨[], none, some "bkt".data⟩ ⟨"mycli".data, "abc1234".data, "1.2.3".data⟩
    ".tar.gz".data ⟨"x64".data, "linux".data⟩ "stable".data rfl (by decide)

/-! ## C4: the Debian package short key rendered for promotion -/

deriving instance DecidableEq for Except

/-- C4 counterexample: for the prerelease version `1.2.3-beta.1` the Debian
artifact promoted is NOT `<bin>_<version>.<sha>-1_<debarch>.deb` with the
full semantic version — `debVersion` truncates the version at the first
`-`. -/
theorem c4_deb_key_counterexample :
    ¬ (debArtifactsE ⟨false, fun _ => [], "mycli".data, "1.2.3-beta.1".data⟩ "abc1234".data
        [⟨"x64".data, "linux".data⟩] =
      .ok (("mycli".data ++ "_".data ++ "1.2.3-beta.1".data ++ ".".data ++ "abc1234".data ++
        "-1".data ++ "_".data ++ "amd64".data ++ ".deb".data) :: debMetadataFiles)) := by
  decide

/-- C4 (amended): for every binary name, version, git SHA and architecture
`a` mapped by `debArch` to `d` (and not containing `x86`), the Debian short
key rendered for promotion is
`<bin>_<versionBeforeFirstDash>.<sha>-1_<d>.deb`: the versionShaRevision
component uses the version truncated at its first `-`, not the full
semantic version. -/
theorem c4_deb_key_shape (hasCustom : Bool) (hook : S3KeyCall → Str)
    (bin version gitSha a d : Str)
    (h1 : debArch a = .ok d) (h2 : jsIncludes "x86".data a = false) :
    debArtifactsE ⟨hasCustom, hook, bin, version⟩ gitSha [⟨a, "linux".data⟩] =
      .ok ((bin ++ "_".data ++ jsSplitHead '-' version ++ ".".data ++ gitSha ++ "-1".data ++
        "_".data ++ d ++ ".deb".data) :: debMetadataFiles) := by
  simp [debArtifactsE, throwingMap, h1, h2, templateShortKey, debVersion, List.append_assoc]
  rfl

/-- C4 witness: the amended theorem at the counterexample's concrete input,
showing the actually rendered truncated key. -/
theorem c4_deb_key_shape_witness :
    debArtifactsE ⟨false, fun _ => [], "mycli".data, "1.2.3-beta.1".data⟩ "abc1234".data
        [⟨"x64".data, "linux".data⟩] =
      .ok (("mycli".data ++ "_".data ++ jsSplitHead '-' "1.2.3-beta.1".data ++ ".".data ++
        "abc1234".data ++ "-1".data ++ "_".data ++ "amd64".data ++ ".deb".data) ::
        debMetadataFiles) :=
  c4_deb_key_shape false (fun _ => []) "mycli".data "1.2.3-beta.1".data "abc1234".data
    "x64".data "amd64".data (by decide) (by decide)

/-! ## C5: upload fail-fast precondition on local tarballs -/

/-- C5: if any target's local versioned `.tar.gz` is missing, the upload run
aborts with an error (so no upload event is ever issued) whose diagnostic
names a missing target's `platform-arch` and whose suggestion names the pack
step to run for it. -/
theorem c5_upload_failfast (fs : Str → Bool) (dist : Str → Str) (config : OclifConfig)
    (s3Config : S3Config) (gitSha : Str) (targets : List TargetOptions) (xz : Bool)
    (h : ∃ t ∈ targets, fs (dist (uploadGzKey config s3Config gitSha t)) = false) :
    ∃ t ∈ targets, fs (dist (uploadGzKey config s3Config gitSha t)) = false ∧
      uploadRun fs dist config s3Config gitSha targets xz =
        .error ⟨"Cannot find a tarball ".data ++ dist (uploadGzKey config s3Config gitSha t) ++
            " for ".data ++ t.platform ++ "-".data ++ t.arch,
          ["Run \"oclif pack --target ".data ++ t.platform ++ "-".data ++ t.arch ++
            "\" before uploading".data]⟩ := by
  obtain ⟨t0, ht0, hft0⟩ := h
  have hp0 : (fun t => !fs (dist (uploadGzKey config s3Config gitSha t))) t0 = true := by
    simp [hft0]
  obtain ⟨t, hfind⟩ : ∃ t,
      targets.find? (fun t => !fs (dist (uploadGzKey config s3Config gitSha t))) = some t :=
    Option.isSome_iff_exists.mp (List.find?_isSome.mpr ⟨t0, ht0, hp0⟩)
  have hmem := List.mem_of_find?_eq_some hfind
  have hpt := List.find?_some hfind
  have hfalse : fs (dist (uploadGzKey config s3Config gitSha t)) = false := by
    simpa using hpt
  refine ⟨t, hmem, hfalse, ?_⟩
  simp only [uploadGzKey] at hfind
  simp only [uploadRun, hfind]
  rfl

/-- C5 witness: the fail-fast theorem at a concrete input where the tarball
is missing. -/
theorem c5_upload_failfast_witness :
    (∃ t ∈ [(⟨"x64".data, "linux".data⟩ : TargetOptions)],
      (fun _ => false) ((fun p => p)
        (uploadGzKey ⟨false, fun _ => [], "mycli".data, "1.2.3".data⟩
          ⟨[], none, some "bkt".data⟩ "abc1234".data t)) = false) ∧
    ∃ t ∈ [(⟨"x64".data, "linux".data⟩ : TargetOptions)],
      (fun _ => false) ((fun p => p)
        (uploadGzKey ⟨false, fun _ => [], "mycli".data, "1.2.3".data⟩
          ⟨[], none, some "bkt".data⟩ "abc1234".data t)) = false ∧
      uploadRun (fun _ => false) (fun p => p) ⟨false, fun _ => [], "mycli".data, "1.2.3".data⟩
          ⟨[], none, some "bkt".data⟩ "abc1234".data
          [⟨"x64".data, "linux".data⟩] false =
        .error ⟨"Cannot find a tarball ".data ++ (fun p => p)
            (uploadGzKey ⟨false, fun _ => [], "mycli".data, "1.2.3".data⟩
              ⟨[], none, some "bkt".data⟩ "abc1234".data t) ++
            " for ".data ++ t.platform ++ "-".data ++ t.arch,
          ["Run \"oclif pack --target ".data ++ t.platform ++ "-".data ++ t.arch ++
            "\" before uploading".data]⟩ :=
  ⟨⟨⟨"x64".data, "linux".data⟩, by simp, rfl⟩,
   c5_upload_failfast (fun _ => false) (fun p => p)
     ⟨false, fun _ => [], "mycli".data, "1.2.3".data⟩ ⟨[], none, some "bkt".data⟩
     "abc1234".data [⟨"x64".data, "linux".data⟩] false
     ⟨⟨"x64".data, "linux".data⟩, by simp, rfl⟩⟩

/-! ## C6: the Debian architecture mapping -/

/-- The four architecture values `debArch` knows. -/
def knownArches : List Str := ["x64".data, "x86".data, "arm".data, "arm64".data]

/-- C6: `debArch` maps x64→amd64, x86→i386, arm→armel, arm64→arm64, succeeds
exactly on those four inputs, fails with the `invalid arch` error on every
other input, and is injective on the four known architectures. -/
theorem c6_debArch_table :
    debArch "x64".data = .ok "amd64".data ∧
    debArch "x86".data = .ok "i386".data ∧
    debArch "arm".data = .ok "armel".data ∧
    debArch "arm64".data = .ok "arm64".data ∧
    (∀ a : Str, (∃ r, debArch a = .ok r) ↔ a ∈ knownArches) ∧
    (∀ a : Str, a ∉ knownArches → debArch a = .error ("invalid arch: ".data ++ a)) ∧
    (∀ a b : Str, a ∈ knownArches → b ∈ knownArches → debArch a = debArch b → a = b) := by
  have herr : ∀ a : Str, a ∉ knownArches → debArch a = .error ("invalid arch: ".data ++ a) := by
    intro a ha
    unfold debArch
    split_ifs with h1 h2 h3 h4
    · exact absurd (by rw [h1]; decide) ha
    · exact absurd (by rw [h2]; decide) ha
    · exact absurd (by rw [h3]; decide) ha
    · exact absurd (by rw [h4]; decide) ha
    · rfl
  refine ⟨by decide, by decide, by decide, by decide, ?_, herr, ?_⟩
  · intro a
    constructor
    · rintro ⟨r, hr⟩
      by_contra ha
      rw [herr a ha] at hr
      exact Except.noConfusion hr
    · intro ha
      simp only [knownArches, List.mem_cons, List.not_mem_nil, or_false] at ha
      rcases ha with rfl | rfl | rfl | rfl
      · exact ⟨"amd64".data, by decide⟩
      · exact ⟨"i386".data, by decide⟩
      · exact ⟨"armel".data, by decide⟩
      · exact ⟨"arm64".data, by decide⟩
  · intro a b ha hb
    simp only [knownArches, List.mem_cons, List.not_mem_nil, or_false] at ha hb
    rcases ha with rfl | rfl | rfl | rfl <;> rcases hb with rfl | rfl | rfl | rfl <;>
      intro hab <;> first | rfl | (exact absurd hab (by decide))

/-- C6 witness: the invalid-arch branch and the injectivity at concrete
architectures. -/
theorem c6_debArch_table_witness :
    debArch "s390x".data = .error ("invalid arch: ".data ++ "s390x".data) ∧
    "x64".data = "x64".data :=
  ⟨c6_debArch_table.2.2.2.2.2.1 "s390x".data (by decide),
   c6_debArch_table.2.2.2.2.2.2 "x64".data "x64".data (by decide) (by decide) rfl⟩

/-! ## C7: Debian promotion fan-out -/

/-- `throwingMap` succeeds, preserving the length, when the function
succeeds on every element. -/
theorem throwingMap_ok_length {α β ε : Type} (f : α → Except ε β) (l : List α)
    (h : ∀ a ∈ l, ∃ b, f a = .ok b) :
    ∃ res, throwingMap f l = .ok res ∧ res.length = l.length := by
  induction l with
  | nil => exact ⟨[], rfl, rfl⟩
  | cons a rest ih =>
    obtain ⟨b, hb⟩ := h a (by simp)
    obtain ⟨res, hres, hlen⟩ := ih (fun x hx => h x (by simp [hx]))
    refine ⟨b :: res, ?_, by simp [hlen]⟩
    simp only [throwingMap, hb, hres]
    rfl

/-- A `flatMap` producing two elements per input doubles the length. -/
theorem length_flatMap_pair {α β : Type} (f g : α → β) (l : List α) :
    (l.flatMap (fun a => [f a, g a])).length = 2 * l.length := by
  induction l with
  | nil => rfl
  | cons a rest ih =>
    simp only [List.flatMap_cons, List.length_append, List.length_cons, List.length_nil, ih]
    omega

/-- C7: when every non-x86 linux target's architecture is mappable, Debian
promotion produces one mapped `.deb` artifact per non-x86 linux target plus
the six shared metadata files, and copies each artifact from the commit
`apt/` source to exactly two destinations — the canonical channel
`apt/<artifact>` key and the `apt/./<artifact>` workaround key — as two
separate copy operations; appending an x86 linux target changes nothing. -/
theorem c7_deb_promotion (config : OclifConfig) (s3Config : S3Config) (gitSha : Str)
    (flags : PromoteFlags) (acl maxAge bucket : Str) (targets : List TargetOptions)
    (hok : ∀ t ∈ targets, t.platform = "linux".data → jsIncludes "x86".data t.arch = false →
      ∃ r, debArch t.arch = .ok r) :
    ∃ names evs,
      debArtifactsE config gitSha targets = .ok names ∧
      promoteDebEvents config s3Config gitSha flags acl maxAge bucket targets = .ok evs ∧
      names.length = ((targets.filter (fun t => t.platform == "linux".data)).filter
        (fun a => !jsIncludes "x86".data a.arch)).length + 6 ∧
      (∀ f ∈ debMetadataFiles, f ∈ names) ∧
      evs = names.flatMap (fun artifact =>
        [PromoteEvent.copy ⟨cloudBucketCommitKey s3Config bucket flags.version flags.sha
            ("apt/".data ++ artifact),
          cloudChannelKey s3Config flags.channel ("apt/".data ++ artifact), acl, maxAge,
          cloudChannelKey s3Config flags.channel ("apt/".data ++ artifact)⟩,
         PromoteEvent.copy ⟨cloudBucketCommitKey s3Config bucket flags.version flags.sha
            ("apt/".data ++ artifact),
          cloudChannelKey s3Config flags.channel "apt/".data ++ "./".data ++ artifact, acl,
          maxAge, cloudChannelKey s3Config flags.channel "apt/".data ++ "./".data ++ artifact⟩]) ∧
      evs.length = 2 * names.length ∧
      (∀ extra : TargetOptions, extra.platform = "linux".data →
        jsIncludes "x86".data extra.arch = true →
        promoteDebEvents config s3Config gitSha flags acl maxAge bucket (targets ++ [extra]) =
          .ok evs) := by
  have hfilter : ∀ t ∈ (targets.filter (fun t => t.platform == "linux".data)).filter
      (fun a => !jsIncludes "x86".data a.arch), ∃ r, debArch t.arch = .ok r := by
    intro t ht
    simp only [List.mem_filter] at ht
    obtain ⟨⟨hmem, hplat⟩, hx⟩ := ht
    exact hok t hmem (by simpa using hplat) (by simpa using hx)
  obtain ⟨debs, hdebs, hdlen⟩ := throwingMap_ok_length
    (fun a => do
      let da ← debArch a.arch
      pure (templateShortKey .deb
        { noOpts with arch := da, bin := config.bin,
                      versionShaRevision := debVersion config.version gitSha }))
    ((targets.filter (fun t => t.platform == "linux".data)).filter
      (fun a => !jsIncludes "x86".data a.arch))
    (fun a ha => by
      obtain ⟨r, hr⟩ := hfilter a ha
      exact ⟨_, by simp only [hr]; rfl⟩)
  have hnames : debArtifactsE config gitSha targets = .ok (debs ++ debMetadataFiles) := by
    simp only [debArtifactsE, hdebs]
    rfl
  refine ⟨debs ++ debMetadataFiles, _, hnames, ?_, ?_, ?_, rfl, ?_, ?_⟩
  · simp only [promoteDebEvents, hnames]
    rfl
  · simp only [List.length_append, hdlen, debMetadataFiles]
    rfl
  · intro f hf
    simp [hf]
  · exact length_flatMap_pair _ _ _
  · intro extra hp hx
    have hfeq : ((targets ++ [extra]).filter (fun t => t.platform == "linux".data)).filter
        (fun a => !jsIncludes "x86".data a.arch) =
        (targets.filter (fun t => t.platform == "linux".data)).filter
        (fun a => !jsIncludes "x86".data a.arch) := by
      rw [List.filter_append, List.filter_append]
      simp [hp, hx]
    have heq : debArtifactsE config gitSha (targets ++ [extra]) =
        debArtifactsE config gitSha targets := by
      simp only [debArtifactsE, hfeq]
    simp only [promoteDebEvents, heq, hnames]
    rfl

/-- C7 witness: the Debian promotion theorem at a concrete configuration
with one linux arm64 target. -/
theorem c7_deb_promotion_witness :
    (∀ t ∈ [(⟨"arm64".data, "linux".data⟩ : TargetOptions)],
      t.platform = "linux".data → jsIncludes "x86".data t.arch = false →
      ∃ r, debArch t.arch = .ok r) ∧
    ∃ names evs,
      debArtifactsE ⟨false, fun _ => [], "mycli".data, "1.2.3".data⟩ "abc1234".data
        [⟨"arm64".data, "linux".data⟩] = .ok names ∧
      promoteDebEvents ⟨false, fun _ => [], "mycli".data, "1.2.3".data⟩
        ⟨[], none, some "bkt".data⟩ "abc1234".data
        ⟨"stable".data, "1.2.3".data, "abc1234".data, "86400".data,
          false, false, false, true, false⟩
        "public-read".data "max-age=86400".data "bkt".data
        [⟨"arm64".data, "linux".data⟩] = .ok evs ∧
      names.length = (([(⟨"arm64".data, "linux".data⟩ : TargetOptions)].filter
        (fun t => t.platform == "linux".data)).filter
        (fun a => !jsIncludes "x86".data a.arch)).length + 6 ∧
      (∀ f ∈ debMetadataFiles, f ∈ names) ∧
      evs = names.flatMap (fun artifact =>
        [PromoteEvent.copy ⟨cloudBucketCommitKey ⟨[], none, some "bkt".data⟩ "bkt".data
            "1.2.3".data "abc1234".data ("apt/".data ++ artifact),
          cloudChannelKey ⟨[], none, some "bkt".data⟩ "stable".data ("apt/".data ++ artifact),
          "public-read".data, "max-age=86400".data,
          cloudChannelKey ⟨[], none, some "bkt".data⟩ "stable".data ("apt/".data ++ artifact)⟩,
         PromoteEvent.copy ⟨cloudBucketCommitKey ⟨[], none, some "bkt".data⟩ "bkt".data
            "1.2.3".data "abc1234".data ("apt/".data ++ artifact),
          cloudChannelKey ⟨[], none, some "bkt".data⟩ "stable".data "apt/".data ++ "./".data ++
            artifact, "public-read".data, "max-age=86400".data,
          cloudChannelKey ⟨[], none, some "bkt".data⟩ "stable".data "apt/".data ++ "./".data ++
            artifact⟩]) ∧
      evs.length = 2 * names.length ∧
      (∀ extra : TargetOptions, extra.platform = "linux".data →
        jsIncludes "x86".data extra.arch = true →
        promoteDebEvents ⟨false, fun _ => [], "mycli".data, "1.2.3".data⟩
          ⟨[], none, some "bkt".data⟩ "abc1234".data
          ⟨"stable".data, "1.2.3".data, "abc1234".data, "86400".data,
            false, false, false, true, false⟩
          "public-read".data "max-age=86400".data "bkt".data
          ([⟨"arm64".data, "linux".data⟩] ++ [extra]) = .ok evs) :=
  ⟨fun t ht _ _ => by
      simp only [List.mem_singleton] at ht
      subst ht
      exact ⟨"arm64".data, by decide⟩,
   c7_deb_promotion ⟨false, fun _ => [], "mycli".data, "1.2.3".data⟩
     ⟨[], none, some "bkt".data⟩ "abc1234".data
     ⟨"stable".data, "1.2.3".data, "abc1234".data, "86400".data,
       false, false, false, true, false⟩
     "public-read".data "max-age=86400".data "bkt".data
     [⟨"arm64".data, "linux".data⟩]
     (fun t ht _ _ => by
       simp only [List.mem_singleton] at ht
       subst ht
       exact ⟨"arm64".data, by decide⟩)⟩

/-! ## C8: optional build-manifest upload -/

/-- C8: whenever the precondition check passes (all gz tarballs present),
the run succeeds; for each target, if the local build manifest exists the
run issues its upload with `max-age=86400` and JSON content type, and if it
does not exist the run still succeeds and issues only a warning naming the
missing manifest. -/
theorem c8_manifest_upload (fs : Str → Bool) (dist : Str → Str) (config : OclifConfig)
    (s3Config : S3Config) (gitSha : Str) (targets : List TargetOptions) (xz : Bool)
    (hall : ∀ t ∈ targets, fs (dist (uploadGzKey config s3Config gitSha t)) = true) :
    ∃ evs, uploadRun fs dist config s3Config gitSha targets xz = .ok evs ∧
      ∀ t ∈ targets,
        (fs (dist (s3Keys_manifest config s3Config ⟨config.bin, gitSha, config.version⟩ t)) =
            true →
          UploadEvent.upload
            ⟨dist (s3Keys_manifest config s3Config ⟨config.bin, gitSha, config.version⟩ t),
              s3Config.bucket,
              s3Keys_cloudKey config s3Config ⟨config.bin, gitSha, config.version⟩
                (s3Keys_manifest config s3Config ⟨config.bin, gitSha, config.version⟩ t),
              jsOrStr s3Config.acl "public-read".data,
              "max-age=86400".data, "application/json".data⟩ ∈ evs) ∧
        (fs (dist (s3Keys_manifest config s3Config ⟨config.bin, gitSha, config.version⟩ t)) =
            false →
          UploadEvent.warn ("Cannot find buildmanifest ".data ++
            dist (s3Keys_manifest config s3Config ⟨config.bin, gitSha, config.version⟩ t) ++
            ". CLI will not be able to update itself.".data) ∈ evs) := by
  have hfifi : targets.find? (fun t => !fs (dist (s3Keys_versioned config s3Config
      ⟨config.bin, gitSha, config.version⟩ ".tar.gz".data t))) = none := by
    rw [List.find?_eq_none]
    intro t ht
    have := hall t ht
    simp only [uploadGzKey] at this
    simp [this]
  refine ⟨targets.flatMap (uploadTarballEvents fs dist config s3Config
      ⟨config.bin, gitSha, config.version⟩ (jsOrStr s3Config.acl "public-read".data) xz),
    by simp only [uploadRun, hfifi], ?_⟩
  intro t ht
  constructor
  · intro hm
    refine List.mem_flatMap.mpr ⟨t, ht, ?_⟩
    simp [uploadTarballEvents, hm]
  · intro hm
    refine List.mem_flatMap.mpr ⟨t, ht, ?_⟩
    simp [uploadTarballEvents, hm]

/-- C8 witness: concrete run where the gz tarball exists but the manifest is
missing: the run is still `.ok` and carries the warning. -/
theorem c8_manifest_upload_witness :
    (∀ t ∈ [(⟨"x64".data, "linux".data⟩ : TargetOptions)],
      (fun p => !jsIncludes "buildmanifest".data p) ((fun p => p)
        (uploadGzKey ⟨false, fun _ => [], "mycli".data, "1.2.3".data⟩
          ⟨[], none, some "bkt".data⟩ "abc1234".data t)) = true) ∧
    ∃ evs, uploadRun (fun p => !jsIncludes "buildmanifest".data p) (fun p => p)
        ⟨false, fun _ => [], "mycli".data, "1.2.3".data⟩ ⟨[], none, some "bkt".data⟩
        "abc1234".data [⟨"x64".data, "linux".data⟩] false = .ok evs ∧
      ∀ t ∈ [(⟨"x64".data, "linux".data⟩ : TargetOptions)],
        ((fun p => !jsIncludes "buildmanifest".data p) ((fun p => p)
            (s3Keys_manifest ⟨false, fun _ => [], "mycli".data, "1.2.3".data⟩
              ⟨[], none, some "bkt".data⟩ ⟨"mycli".data, "abc1234".data, "1.2.3".data⟩ t)) =
            true →
          UploadEvent.upload
            ⟨(fun p => p) (s3Keys_manifest ⟨false, fun _ => [], "mycli".data, "1.2.3".data⟩
                ⟨[], none, some "bkt".data⟩ ⟨"mycli".data, "abc1234".data, "1.2.3".data⟩ t),
              some "bkt".data,
              s3Keys_cloudKey ⟨false, fun _ => [], "mycli".data, "1.2.3".data⟩
                ⟨[], none, some "bkt".data⟩ ⟨"mycli".data, "abc1234".data, "1.2.3".data⟩
                (s3Keys_manifest ⟨false, fun _ => [], "mycli".data, "1.2.3".data⟩
                  ⟨[], none, some "bkt".data⟩ ⟨"mycli".data, "abc1234".data, "1.2.3".data⟩ t),
              jsOrStr none "public-read".data,
              "max-age=86400".data, "application/json".data⟩ ∈ evs) ∧
        ((fun p => !jsIncludes "buildmanifest".data p) ((fun p => p)
            (s3Keys_manifest ⟨false, fun _ => [], "mycli".data, "1.2.3".data⟩
              ⟨[], none, some "bkt".data⟩ ⟨"mycli".data, "abc1234".data, "1.2.3".data⟩ t)) =
            false →
          UploadEvent.warn ("Cannot find buildmanifest ".data ++
            (fun p => p) (s3Keys_manifest ⟨false, fun _ => [], "mycli".data, "1.2.3".data⟩
              ⟨[], none, some "bkt".data⟩ ⟨"mycli".data, "abc1234".data, "1.2.3".data⟩ t) ++
            ". CLI will not be able to update itself.".data) ∈ evs) :=
  ⟨by decide,
   c8_manifest_upload (fun p => !jsIncludes "buildmanifest".data p) (fun p => p)
     ⟨false, fun _ => [], "mycli".data, "1.2.3".data⟩ ⟨[], none, some "bkt".data⟩
     "abc1234".data [⟨"x64".data, "linux".data⟩] false (by decide)⟩

/-! ## C9: default ACL of every issued operation -/

/-- Every upload issued by a target's `uploadTarball` carries the `acl`
argument. -/
theorem uploadTarballEvents_acl (fs : Str → Bool) (dist : Str → Str) (config : OclifConfig)
    (s3Config : S3Config) (options : KeyOpts) (acl : Str) (xz : Bool) (t : TargetOptions) :
    ∀ op, UploadEvent.upload op ∈ uploadTarballEvents fs dist config s3Config options acl xz t →
      op.acl = acl := by
  intro op hop
  simp only [uploadTarballEvents, List.mem_append] at hop
  rcases hop with (hop | hop) | hop
  · simp_all
  · by_cases hm : fs (dist (s3Keys_manifest config s3Config options t)) = true
    · simp only [hm, if_true, List.mem_singleton, UploadEvent.upload.injEq] at hop
      subst hop
      rfl
    · simp [hm] at hop
  · cases xz with
    | false => simp at hop
    | true =>
      simp only [if_true, List.mem_singleton, UploadEvent.upload.injEq] at hop
      subst hop
      rfl

/-- Every copy issued by `promoteManifest` carries the `acl` argument. -/
theorem promoteManifestEvents_acl (config : OclifConfig) (s3Config : S3Config)
    (flags : PromoteFlags) (acl maxAge bucket : Str) (t : TargetOptions) :
    ∀ op, PromoteEvent.copy op ∈ promoteManifestEvents config s3Config flags acl maxAge bucket t →
      op.acl = acl := by
  intro op hop
  unfold promoteManifestEvents at hop
  simp_all

/-- Every copy issued by `promoteGzTarballs`/`promoteXzTarballs` carries the
`acl` argument. -/
theorem promoteTarballEvents_acl (config : OclifConfig) (s3Config : S3Config)
    (flags : PromoteFlags) (acl maxAge bucket ext : Str) (t : TargetOptions) :
    ∀ op, PromoteEvent.copy op ∈
        promoteTarballEvents config s3Config flags acl maxAge bucket ext t →
      op.acl = acl := by
  intro op hop
  unfold promoteTarballEvents at hop
  split_ifs at hop <;> simp_all

/-- Every copy issued by `promoteMacInstallers` carries the `acl` argument. -/
theorem promoteMacEvents_acl (config : OclifConfig) (s3Config : S3Config)
    (flags : PromoteFlags) (acl maxAge bucket : Str) (targets : List TargetOptions) :
    ∀ op, PromoteEvent.copy op ∈ promoteMacEvents config s3Config flags acl maxAge bucket targets →
      op.acl = acl := by
  intro op hop
  unfold promoteMacEvents at hop
  obtain ⟨arch, -, hmem⟩ := List.mem_flatMap.mp hop
  split_ifs at hmem <;> simp_all

/-- Every copy issued by `promoteWindowsInstallers` carries the `acl`
argument. -/
theorem promoteWinEvents_acl (config : OclifConfig) (s3Config : S3Config)
    (flags : PromoteFlags) (acl maxAge bucket : Str) (targets : List TargetOptions) :
    ∀ op, PromoteEvent.copy op ∈ promoteWinEvents config s3Config flags acl maxAge bucket targets →
      op.acl = acl := by
  intro op hop
  unfold promoteWinEvents at hop
  obtain ⟨arch, -, hmem⟩ := List.mem_flatMap.mp hop
  split_ifs at hmem <;> simp_all

/-- Every copy issued by `promoteDebianAptPackages` carries the `acl`
argument. -/
theorem promoteDebEvents_acl (config : OclifConfig) (s3Config : S3Config) (gitSha : Str)
    (flags : PromoteFlags) (acl maxAge bucket : Str) (targets : List TargetOptions)
    (evs : List PromoteEvent)
    (hdeb : promoteDebEvents config s3Config gitSha flags acl maxAge bucket targets = .ok evs) :
    ∀ op, PromoteEvent.copy op ∈ evs → op.acl = acl := by
  intro op hop
  cases hart : debArtifactsE config gitSha targets with
  | error e =>
    rw [promoteDebEvents, hart] at hdeb
    exact Except.noConfusion hdeb
  | ok names =>
    rw [promoteDebEvents, hart] at hdeb
    have hevs : evs = names.flatMap _ := (Except.ok.injEq _ _).mp hdeb |>.symm
    subst hevs
    obtain ⟨artifact, -, hmem⟩ := List.mem_flatMap.mp hop
    clear hop
    simp only [List.mem_cons, List.not_mem_nil, or_false, PromoteEvent.copy.injEq] at hmem
    rcases hmem with rfl | rfl <;> rfl

/-- C9: when the storage configuration specifies no ACL, every upload
operation of the upload command and every copy operation of the promote
command is issued with the canned ACL `public-read`. -/
theorem c9_default_acl (fs : Str → Bool) (dist : Str → Str) (config : OclifConfig)
    (s3Config : S3Config) (gitSha pGitSha : Str) (targets ptargets : List TargetOptions)
    (xz : Bool) (flags : PromoteFlags) (hacl : s3Config.acl = none) :
    (∀ evs, uploadRun fs dist config s3Config gitSha targets xz = .ok evs →
      ∀ op, UploadEvent.upload op ∈ evs → op.acl = "public-read".data) ∧
    (∀ evs, promoteRun config s3Config pGitSha flags ptargets = .ok evs →
      ∀ op, PromoteEvent.copy op ∈ evs → op.acl = "public-read".data) := by
  constructor
  · intro evs hrun op hop
    cases hf : targets.find? (fun t => !fs (dist (s3Keys_versioned config s3Config
        ⟨config.bin, gitSha, config.version⟩ ".tar.gz".data t))) with
    | some t => simp [uploadRun, hf] at hrun
    | none =>
      simp only [uploadRun, hf] at hrun
      have hevs := (Except.ok.injEq _ _).mp hrun
      subst hevs
      obtain ⟨t, -, hmem⟩ := List.mem_flatMap.mp hop
      have h := uploadTarballEvents_acl fs dist config s3Config
        ⟨config.bin, gitSha, config.version⟩ (jsOrStr s3Config.acl "public-read".data) xz t
        op hmem
      rw [h, hacl]
      rfl
  · intro evs hrun op hop
    simp only [promoteRun] at hrun
    split at hrun
    · exact Except.noConfusion hrun
    · split at hrun
      · exact Except.noConfusion hrun
      · rename_i devs hD
        have hevs := (Except.ok.injEq _ _).mp hrun
        subst hevs
        simp only [List.mem_append] at hop
        rcases hop with (((hop | hop) | hop) | hop) | hop
        · obtain ⟨t, -, hmem⟩ := List.mem_flatMap.mp hop
          rcases List.mem_append.mp hmem with hmem | hmem
          · have h := promoteManifestEvents_acl config s3Config flags _ _ _ t op hmem
            rw [h, hacl]
            rfl
          · have h := promoteTarballEvents_acl config s3Config flags _ _ _ _ t op hmem
            rw [h, hacl]
            rfl
        · split at hop
          · obtain ⟨t, -, hmem⟩ := List.mem_flatMap.mp hop
            have h := promoteTarballEvents_acl config s3Config flags _ _ _ _ t op hmem
            rw [h, hacl]
            rfl
          · exact absurd hop (List.not_mem_nil _)
        · split at hop
          · have h := promoteMacEvents_acl config s3Config flags _ _ _ ptargets op hop
            rw [h, hacl]
            rfl
          · exact absurd hop (List.not_mem_nil _)
        · split at hop
          · have h := promoteWinEvents_acl config s3Config flags _ _ _ ptargets op hop
            rw [h, hacl]
            rfl
          · exact absurd hop (List.not_mem_nil _)
        · split at hD
          · have h := promoteDebEvents_acl config s3Config pGitSha flags _ _ _ ptargets devs
              hD op hop
            rw [h, hacl]
            rfl
          · have : devs = [] := ((Except.ok.injEq _ _).mp hD).symm
            subst this
            exact absurd hop (List.not_mem_nil _)

/-- C9 witness: the default-ACL theorem applied at a concrete ACL-less
configuration, at the manifest copy operation of a concrete promote run. -/
theorem c9_default_acl_witness :
    (⟨"bkt/versions/1.2.3/abc1234/mycli-v1.2.3-abc1234-linux-x64-buildmanifest".data,
      "channels/stable/mycli-linux-x64-buildmanifest".data, "public-read".data,
      "max-age=86400".data, "mycli-linux-x64-buildmanifest".data⟩ : CopyOp).acl =
      "public-read".data :=
  (c9_default_acl (fun _ => true) (fun p => p)
    ⟨false, fun _ => [], "mycli".data, "1.2.3".data⟩ ⟨[], none, some "bkt".data⟩
    "abc1234".data "abc1234".data [⟨"x64".data, "linux".data⟩]
    [⟨"x64".data, "linux".data⟩] false
    ⟨"stable".data, "1.2.3".data, "abc1234".data, "86400".data,
      false, false, false, false, false⟩ rfl).2 _ rfl _ (by decide)

/-! ## C10: the precondition check does not cover xz tarballs -/

/-- C10: the fail-fast check inspects only each target's `.tar.gz`: at a
concrete input whose `.tar.gz` (and manifest) exist but whose `.tar.xz` is
absent, with xz upload enabled, the run passes the precondition check (it
returns `.ok`) and still issues the xz upload operation referencing the
missing local file — the problem would surface only when that upload is
attempted. -/
theorem c10_xz_not_prechecked :
    ∃ evs, uploadRun (fun p => p != "dist/mycli-v1.2.3-abc1234-linux-x64.tar.xz".data)
        (fun p => "dist/".data ++ p) ⟨false, fun _ => [], "mycli".data, "1.2.3".data⟩
        ⟨[], none, some "bkt".data⟩ "abc1234".data [⟨"x64".data, "linux".data⟩] true =
      .ok evs ∧
      UploadEvent.upload ⟨"dist/mycli-v1.2.3-abc1234-linux-x64.tar.xz".data,
        some "bkt".data,
        "versions/1.2.3/abc1234/mycli-v1.2.3-abc1234-linux-x64.tar.xz".data,
        "public-read".data, "max-age=604800".data, "application/gzip".data⟩ ∈ evs ∧
      (fun p => p != "dist/mycli-v1.2.3-abc1234-linux-x64.tar.xz".data)
        "dist/mycli-v1.2.3-abc1234-linux-x64.tar.xz".data = false := by
  refine ⟨_, rfl, ?_, ?_⟩
  · decide
  · decide

end Oclif
